import Mathlib

/-!
Shallow embedding of the core test-runner of the `anti-work/shortest` repository,
centred on `TestRunner.executeTest` and `TestRunner.runCachedTest`
(packages/shortest/src/core/runner/index.ts) and on `LLMAdapter.transformAndExecute`
(the action-dispatch adapter).

External collaborators (the browser backend `BrowserTool`, the model client
`AIClient.processAction`, the JSON parser, the hook callbacks of a test and the
key-value cache content) are modelled as components of an environment record:
each is a value or function describing the outcome the external call would
produce.  The control flow, the literal strings, the guard conditions and the
order of effects are translated statement by statement from the TypeScript
source.  A `Trace` record instruments the run with the observable effects the
claims talk about: how often the model was called, whether the cache entry was
deleted, how often `cache.set` ran, which hooks ran, and which coordinates were
fingerprint-checked during replay.
-/

namespace Shortest

/-- Token usage counters of a test result (`TokenMetricsSchema`). -/
structure TokenUsage where
  input : Nat
  output : Nat
deriving DecidableEq, Repr

/-- Outcome of one test execution as the runner reports it: the `status` string,
the `reason` and the token usage (`TestResultSchema`, with the `test` field and
the unchecked JSON cast modelled by keeping `status` a plain string). -/
structure TestResult where
  status : String
  reason : String
  tokenUsage : TokenUsage
deriving DecidableEq, Repr

/-- The browser-action tag of a recorded step (`BrowserActionEnum`).  Only
`mouse_move` and `screenshot` are inspected by the runner; every other tag is
carried through `other`. -/
inductive BrowserAction where
  | mouseMove
  | screenshot
  | other (tag : String)
deriving DecidableEq, Repr

/-- The `input` of a recorded tool call: its action tag and the optional
`coordinate` field (the only fields `runCachedTest` reads). -/
structure ActionInput where
  action : BrowserAction
  coordinate : Option (Int × Int)
deriving DecidableEq, Repr

/-- One step of a cached trace: `step.action?.input` and
`step.extras.componentStr`. -/
structure CacheStep where
  action : Option ActionInput
  extrasComponentStr : Option String
deriving DecidableEq, Repr

/-- A cache entry (`CacheEntry`): `data.steps` may be absent. -/
structure CacheEntry where
  steps : Option (List CacheStep)
deriving DecidableEq, Repr

/-- One content block of the model's final response: its `type === "text"` flag
and its text. -/
structure Block where
  isText : Bool
  text : String
deriving DecidableEq, Repr

/-- What `JSON.parse` of the matched verdict object yields, as the runner reads
it: the `status` and `reason` fields. -/
structure ParsedAI where
  status : String
  reason : String
deriving DecidableEq, Repr

/-- Result of a successful `aiClient.processAction` call: the content blocks of
the final response and the accumulated token usage. -/
structure AIRunResult where
  content : List Block
  tokenUsage : TokenUsage
deriving DecidableEq, Repr

/-- The environment of one `executeTest` call: the outcomes every external
collaborator would produce.  Hook fields are `none` when the test has no such
hook, `some (Except.error m)` when the hook would throw the message `m`. -/
structure Env where
  directExecution : Bool
  fnOutcome : Option (Except String Unit)
  anthropicKeySet : Bool
  screenshotOutcome : Except String String
  runnerNoCache : Bool
  cache : Option CacheEntry
  fingerprintAt : Int → Int → Except String String
  gotoOutcome : Except String Unit
  beforeOutcome : Option (Except String Unit)
  afterOutcome : Option (Except String Unit)
  aiResult : Option AIRunResult
  jsonParse : String → Except String ParsedAI

/-- Instrumentation of one run: the externally observable effects. -/
structure Trace where
  aiCalls : Nat
  cacheDeleted : Bool
  cacheSets : Nat
  beforeRuns : Nat
  afterRuns : Nat
  gotos : Nat
  fpChecks : List (Int × Int)
  execs : List ActionInput
deriving DecidableEq, Repr

/-- The empty instrumentation record at the start of a run. -/
def tr0 : Trace := ⟨0, false, 0, 0, 0, 0, [], []⟩

/-- Does the needle occur as a prefix of the haystack? -/
def charsPre : List Char → List Char → Bool
  | [], _ => true
  | _ :: _, [] => false
  | a :: as, b :: bs => a == b && charsPre as bs

/-- Does the needle occur contiguously inside the haystack? -/
def charsSub (n : List Char) : List Char → Bool
  | [] => n.isEmpty
  | b :: bs => charsPre n (b :: bs) || charsSub n bs

/-- Model of JavaScript `hay.includes(needle)`. -/
def strContains (needle hay : String) : Bool :=
  charsSub needle.toList hay.toList

/-- The literal `'"status":'` the runner scans the model text for. -/
def statusKey : String := "\"status\":"

/-- The final message lookup (runner/index.ts lines 320-330): the first content
block with `type === "text"` whose text includes `'"status":'`. -/
def findFinalMessage (blocks : List Block) : Option String :=
  match blocks.find? (fun b => b.isText && strContains statusKey b.text) with
  | some b => some b.text
  | none => none

/-- The opening curly brace character, written by code point. -/
def obrace : Char := Char.ofNat 123

/-- The closing curly brace character, written by code point. -/
def cbrace : Char := Char.ofNat 125

/-- Index of the first occurrence of a character. -/
def firstIdx (c : Char) : List Char → Option Nat
  | [] => none
  | a :: as => if a == c then some 0 else (firstIdx c as).map (· + 1)

/-- Index of the last occurrence of a character. -/
def lastIdx (c : Char) : List Char → Option Nat
  | [] => none
  | a :: as =>
    match lastIdx c as with
    | some j => some (j + 1)
    | none => if a == c then some 0 else none

/-- Model of `text.match(greedy brace regex)` (runner/index.ts line 334): the
greedy match runs from the first opening brace to the last closing brace that
follows it, and fails when no such pair exists. -/
def braceMatch (s : String) : Option String :=
  let cs := s.toList
  match firstIdx obrace cs with
  | none => none
  | some i =>
    let rest := cs.drop i
    match lastIdx cbrace (rest.drop 1) with
    | none => none
    | some j => some (String.mk (rest.take (j + 2)))

/-- The result `runCachedTest` returns when every step replayed
(runner/index.ts lines 545-550). -/
def replayPassResult : TestResult :=
  ⟨"passed", "All actions successfully replayed from cache", ⟨0, 0⟩⟩

/-- The result `runCachedTest` returns on a live-fingerprint mismatch
(runner/index.ts lines 522-529). -/
def replayMismatchResult : TestResult :=
  ⟨"failed", "Component UI elements are different, running test in normal mode", ⟨0, 0⟩⟩

/-- The result `runCachedTest` returns when the cached entry has no steps
(runner/index.ts lines 500-507). -/
def replayNoStepsResult : TestResult :=
  ⟨"failed", "No steps to execute, running test in normal mode", ⟨0, 0⟩⟩

/-- Outcome of `runCachedTest`: either a returned `TestResult` or a thrown
exception (which the caller's `catch` block handles). -/
inductive ReplayRes where
  | res (r : TestResult)
  | thrown (msg : String)
deriving DecidableEq, Repr

/-- The replay loop of `runCachedTest` (runner/index.ts lines 508-543): for each
step, when the action tag is `mouse_move` and a coordinate is present, the live
component string at the coordinates is recomputed; a thrown lookup aborts the
whole call, a mismatch with `extras.componentStr` returns the mismatch result,
and otherwise the step's input is executed (its own errors are caught and only
logged, so they never alter control flow). -/
def replayLoop (env : Env) : List CacheStep → Trace → ReplayRes × Trace
  | [], tr => (ReplayRes.res replayPassResult, tr)
  | s :: rest, tr =>
    match s.action with
    | none => replayLoop env rest tr
    | some inp =>
      match inp.action, inp.coordinate with
      | BrowserAction.mouseMove, some (x, y) =>
        match env.fingerprintAt x y with
        | Except.error m =>
          (ReplayRes.thrown m, {tr with fpChecks := tr.fpChecks ++ [(x, y)]})
        | Except.ok live =>
          let tr2 : Trace := {tr with fpChecks := tr.fpChecks ++ [(x, y)]}
          if s.extrasComponentStr = some live then
            replayLoop env rest {tr2 with execs := tr2.execs ++ [inp]}
          else
            (ReplayRes.res replayMismatchResult, tr2)
      | _, _ => replayLoop env rest {tr with execs := tr.execs ++ [inp]}

/-- Is a recorded step a screenshot step?  (`step.action?.input.action ===
BrowserActionEnum.Screenshot`; a step without an action is not one.) -/
def isScreenshotStep (s : CacheStep) : Bool :=
  match s.action with
  | some inp => inp.action = BrowserAction.screenshot
  | none => false

/-- The steps `runCachedTest` will replay: `cachedTest?.data.steps` filtered to
drop screenshot steps; `none` when the entry or its step list is absent
(runner/index.ts lines 493-498). -/
def cachedSteps (c : Option CacheEntry) : Option (List CacheStep) :=
  match c with
  | none => none
  | some entry =>
    match entry.steps with
    | none => none
    | some l => some (l.filter (fun s => !(isScreenshotStep s)))

/-- `TestRunner.runCachedTest` (runner/index.ts lines 484-551). -/
def runCachedTest (env : Env) (tr : Trace) : ReplayRes × Trace :=
  match cachedSteps env.cache with
  | none => (ReplayRes.res replayNoStepsResult, tr)
  | some steps => replayLoop env steps tr

/-- The tail of `executeTest` after JSON parsing succeeded and the after-hook
(if any) did not throw: store the trace in the cache exactly when the parsed
status is `"passed"`, then return the parsed result with the call's token usage
(runner/index.ts lines 362-366). -/
def finishRun (parsed : ParsedAI) (tu : TokenUsage) (tr : Trace) :
    Except String TestResult × Trace :=
  if parsed.status = "passed" then
    (Except.ok ⟨parsed.status, parsed.reason, tu⟩, {tr with cacheSets := tr.cacheSets + 1})
  else
    (Except.ok ⟨parsed.status, parsed.reason, tu⟩, tr)

/-- The after-hook step of the fresh path (runner/index.ts lines 341-360): a
throwing after-hook yields a failed result whose reason composes the AI reason
as an `AI:` fragment exactly when the parsed status is `"failed"`, and is the
hook error alone otherwise. -/
def afterAndFinish (env : Env) (parsed : ParsedAI) (tu : TokenUsage) (tr : Trace) :
    Except String TestResult × Trace :=
  match env.afterOutcome with
  | some (Except.error m) =>
    (Except.ok ⟨"failed",
        if parsed.status = "failed" then
          "AI: " ++ parsed.reason ++ ", After: " ++ m
        else m,
        tu⟩,
      {tr with afterRuns := tr.afterRuns + 1})
  | some (Except.ok _) => finishRun parsed tu {tr with afterRuns := tr.afterRuns + 1}
  | none => finishRun parsed tu tr

/-- One `aiClient.processAction` call and the runner's parsing of its final
response (runner/index.ts lines 313-339): a missing result, a missing
status-bearing text block, a failed brace match or a throwing `JSON.parse` each
throw; otherwise the after-hook runs and the run finishes. -/
def freshAI (env : Env) (tr : Trace) : Except String TestResult × Trace :=
  match env.aiResult with
  | none =>
    (Except.error "AI processing failed: no result returned", {tr with aiCalls := tr.aiCalls + 1})
  | some ai =>
    match findFinalMessage ai.content with
    | none =>
      (Except.error "No test result found in AI response", {tr with aiCalls := tr.aiCalls + 1})
    | some txt =>
      match braceMatch txt with
      | none =>
        (Except.error "Invalid test result format", {tr with aiCalls := tr.aiCalls + 1})
      | some js =>
        match env.jsonParse js with
        | Except.error m => (Except.error m, {tr with aiCalls := tr.aiCalls + 1})
        | Except.ok parsed =>
          afterAndFinish env parsed ai.tokenUsage {tr with aiCalls := tr.aiCalls + 1}

/-- The fresh-run tail of `executeTest` starting at the before-hook
(runner/index.ts lines 298-367): a throwing before-hook short-circuits to a
failed result (no model call, no after-hook), otherwise the model runs. -/
def freshTail (env : Env) (tr : Trace) : Except String TestResult × Trace :=
  match env.beforeOutcome with
  | some (Except.error m) =>
    (Except.ok ⟨"failed", m, ⟨0, 0⟩⟩, {tr with beforeRuns := tr.beforeRuns + 1})
  | some (Except.ok _) => freshAI env {tr with beforeRuns := tr.beforeRuns + 1}
  | none => freshAI env tr

/-- The preliminaries of `executeTest` before the cache check (runner/index.ts
lines 170-256): the direct-execution shortcut, the `ANTHROPIC_KEY` guard and
the initial screenshot; `k` continues with the window url of the screenshot. -/
def withPrelims (env : Env) (tr : Trace)
    (k : String → Trace → Except String TestResult × Trace) :
    Except String TestResult × Trace :=
  if env.directExecution = true then
    match env.fnOutcome with
    | some (Except.error m) => (Except.ok ⟨"failed", m, ⟨0, 0⟩⟩, tr)
    | _ => (Except.ok ⟨"passed", "Direct execution successful", ⟨0, 0⟩⟩, tr)
  else if env.anthropicKeySet = false then
    (Except.ok ⟨"failed", "ANTHROPIC_KEY is not set", ⟨0, 0⟩⟩, tr)
  else
    match env.screenshotOutcome with
    | Except.error m => (Except.error m, tr)
    | Except.ok url => k url tr

/-- What the recursive call `executeTest(test, context, noCache set)` performs:
with caching disabled the cache block is skipped entirely, so the call is the
preliminaries followed by the fresh tail.  `executeTest_noCache_eq_freshRun`
below proves this equality against the full definition. -/
def freshRun (env : Env) (tr : Trace) : Except String TestResult × Trace :=
  withPrelims env tr (fun _ tr2 => freshTail env tr2)

/-- The cache-hit branch of `executeTest` (runner/index.ts lines 261-295).  A
returned replay result goes through the after-hook and is returned with zero
token usage.  A thrown replay deletes the cache entry, navigates back to the
initial url, runs the recursive no-cache call — whose returned result is
discarded because the source has no `return` there, while an exception from it
still propagates — and then falls through into the outer invocation's own fresh
tail. -/
def cacheBranch (env : Env) (tr : Trace) : Except String TestResult × Trace :=
  match runCachedTest env tr with
  | (ReplayRes.res result, tr1) =>
    match env.afterOutcome with
    | some (Except.error m) =>
      (Except.ok ⟨"failed",
          if result.status = "failed" then
            "AI: " ++ result.reason ++ ", After: " ++ m
          else m,
          ⟨0, 0⟩⟩,
        {tr1 with afterRuns := tr1.afterRuns + 1})
    | some (Except.ok _) =>
      (Except.ok {result with tokenUsage := ⟨0, 0⟩}, {tr1 with afterRuns := tr1.afterRuns + 1})
    | none => (Except.ok {result with tokenUsage := ⟨0, 0⟩}, tr1)
  | (ReplayRes.thrown _, tr1) =>
    let tr2 : Trace := {tr1 with cacheDeleted := true}
    match env.gotoOutcome with
    | Except.error m => (Except.error m, tr2)
    | Except.ok _ =>
      let tr3 : Trace := {tr2 with gotos := tr2.gotos + 1}
      match freshRun env tr3 with
      | (Except.error m, tr4) => (Except.error m, tr4)
      | (Except.ok _, tr4) => freshTail env tr4

/-- `TestRunner.executeTest` (runner/index.ts lines 165-367).  `cfgNoCache` is
the `config.noCache` parameter of the call.  The cache block runs only when
neither the runner-wide flag nor the per-call flag disables caching and the
cache holds an entry for the test. -/
def executeTest (env : Env) (cfgNoCache : Bool) (tr : Trace) :
    Except String TestResult × Trace :=
  withPrelims env tr (fun _ tr2 =>
    if env.runnerNoCache = false ∧ cfgNoCache = false then
      match env.cache with
      | some _ => cacheBranch env tr2
      | none => freshTail env tr2
    else freshTail env tr2)

/-- The loop over one file's tests (runner/index.ts lines 408-422, with the
hook registries empty): each test's returned result is collected; an exception
thrown by a test escapes the loop, so the remaining tests of the file never
run, and the file is reported failed with that message (the `catch` at lines
442-454).  `none` in the second component means no exception escaped. -/
def runTestsOfFile : List Env → List TestResult → List TestResult × Option String
  | [], acc => (acc, none)
  | e :: rest, acc =>
    match executeTest e false tr0 with
    | (Except.ok r, _) => runTestsOfFile rest (acc ++ [r])
    | (Except.error m, _) => (acc, some m)

/-- The loop over test files (runner/index.ts lines 470-472):
`executeTestFile` catches every exception, so every file is processed no
matter how the previous ones fared. -/
def runTestsModel (files : List (List Env)) : List (List TestResult × Option String) :=
  files.map (fun envs => runTestsOfFile envs [])

/-- The coordinates at which the replay of a step recomputes the live
fingerprint: present exactly when the step's action tag is `mouse_move` and the
step carries a coordinate. -/
def fpTarget (s : CacheStep) : Option (Int × Int) :=
  match s.action with
  | some inp =>
    if inp.action = BrowserAction.mouseMove then inp.coordinate else none
  | none => none

/-- A step replays cleanly in the given environment: either it is not a
pointer-verified step, or the live fingerprint computes and equals the recorded
one. -/
def stepClean (env : Env) (s : CacheStep) : Bool :=
  match s.action with
  | none => true
  | some inp =>
    match inp.action, inp.coordinate with
    | BrowserAction.mouseMove, some (x, y) =>
      match env.fingerprintAt x y with
      | Except.error _ => false
      | Except.ok live => s.extrasComponentStr = some live
    | _, _ => true

/-- The fields LLMAdapter's `transformAndExecute` reads off a model tool call. -/
structure ClaudeResponse where
  action : String
  coordinate : Option (Int × Int)
  text : Option String
  url : Option String
  duration : Option Int
deriving DecidableEq, Repr

/-- A value of the `keyboardShortcuts` synonym table: a single key or a chord. -/
inductive KeyVal where
  | str (s : String)
  | arr (l : List String)
deriving DecidableEq, Repr

/-- A browser-backend operation the adapter can invoke. -/
inductive BrowserOp where
  | pressKey (keys : List String)
  | typeText (t : String)
  | moveCursor (x y : Int)
  | click (x y : Option Int)
  | drag (x y : Int)
  | screenshot
  | getState
  | navigate (url : String)
  | sleepOp (d : Option Int)
deriving DecidableEq, Repr

/-- `LLMAdapter.transformAndExecute` and its handlers: which browser operations
a tool call fires and with what error, if any, the dispatch ends.  `ks` is the
external `keyboardShortcuts` table.  The `sleep` case of the source switch has
no `return`, so after firing `handleSleep` (which starts `browser.sleep`)
control falls through into the `default` case and the unsupported-action error
is thrown. -/
def transformAndExecute (ks : String → Option KeyVal) (r : ClaudeResponse) :
    List BrowserOp × Except String Unit :=
  match r.action with
  | "key" =>
    match r.text with
    | none => ([], Except.error "Text required for key press action.")
    | some t =>
      let tl := t.toLower
      let toPress : List String :=
        match ks tl with
        | some (KeyVal.arr l) => l
        | some (KeyVal.str s) => [s]
        | none => [tl]
      ([BrowserOp.pressKey toPress], Except.ok ())
  | "type" =>
    match r.text with
    | none => ([], Except.error "Text required for type action.")
    | some t => ([BrowserOp.typeText t], Except.ok ())
  | "mouse_move" =>
    match r.coordinate with
    | none => ([], Except.error "Coordinate required for mouse_move action.")
    | some (x, y) => ([BrowserOp.moveCursor x y], Except.ok ())
  | "left_click" =>
    match r.coordinate with
    | some (x, y) => ([BrowserOp.click (some x) (some y)], Except.ok ())
    | none => ([BrowserOp.click none none], Except.ok ())
  | "left_click_drag" =>
    match r.coordinate with
    | none => ([], Except.error "Coordinate required for left_click_drag action.")
    | some (x, y) => ([BrowserOp.drag x y], Except.ok ())
  | "right_click" => ([], Except.error "Right click not supported yet.")
  | "middle_click" => ([], Except.error "Right click not supported yet.")
  | "double_click" =>
    (match r.coordinate with
     | some (x, y) => ([BrowserOp.click (some x) (some y)], Except.ok ())
     | none => ([BrowserOp.click none none], Except.ok ()))
  | "screenshot" => ([BrowserOp.screenshot], Except.ok ())
  | "cursor_position" => ([BrowserOp.getState], Except.ok ())
  | "navigate" =>
    match r.url with
    | none => ([], Except.error "URL required for navigate action.")
    | some u => ([BrowserOp.navigate u], Except.ok ())
  | "sleep" =>
    ([BrowserOp.sleepOp r.duration], Except.error ("Unsupported action: " ++ r.action))
  | a => ([], Except.error ("Unsupported action: " ++ a))

/-! Concrete environments used as witnesses and counterexamples. -/

/-- A concrete window url. -/
def baseUrl : String := "http://localhost:3000/login"

/-- A model text block that carries a well-formed verdict object. -/
def aiPassBlock : Block :=
  ⟨true, "Final result: \x7b\"status\": \"passed\", \"reason\": \"done\"\x7d"⟩

/-- A model run whose final response carries a passing verdict. -/
def aiPass : AIRunResult := ⟨[aiPassBlock], ⟨5, 7⟩⟩

/-- A JSON parser outcome for the passing verdict object. -/
def jsonPass : String → Except String ParsedAI :=
  fun _ => Except.ok ⟨"passed", "done"⟩

/-- A baseline environment: non-direct test, key set, screenshot fine, caching
allowed but no cache entry, no hooks, a passing model run. -/
def baseEnv : Env :=
  ⟨false, none, true, Except.ok baseUrl, false, none,
    fun _ _ => Except.ok "A", Except.ok (), none, none, some aiPass, jsonPass⟩

/-- A recorded `mouse_move` step at (10, 20) whose recorded component string is
`"A"`. -/
def mmStep : CacheStep := ⟨some ⟨BrowserAction.mouseMove, some (10, 20)⟩, some "A"⟩

/-- A recorded non-pointer step (a click) with no recorded component string. -/
def clickStep : CacheStep := ⟨some ⟨BrowserAction.other "left_click", some (30, 40)⟩, none⟩

/-- A recorded screenshot step (filtered out before replay). -/
def ssStep : CacheStep := ⟨some ⟨BrowserAction.screenshot, none⟩, none⟩

/-- A cache entry holding exactly the mouse-move step. -/
def entryMM : CacheEntry := ⟨some [mmStep]⟩

/-- Environment for C1: cache hit on `entryMM`, but the live fingerprint at
(10, 20) is `"B"` while the recorded one is `"A"`. -/
def envC1 : Env := {baseEnv with cache := some entryMM, fingerprintAt := fun _ _ => Except.ok "B"}

/-- Environment for C2: cache hit on `entryMM`, and the live fingerprint lookup
throws, so the replay throws into the fallback `catch`. -/
def envC2 : Env :=
  {baseEnv with cache := some entryMM,
                fingerprintAt := fun _ _ => Except.error "fingerprint lookup crashed"}

/-- A model run whose final response contains no verdict object at all. -/
def aiNoVerdict : AIRunResult := ⟨[⟨true, "I clicked the login button"⟩], ⟨9, 2⟩⟩

/-- Environment for C3: fresh run whose model reply has no parseable verdict. -/
def envC3bad : Env := {baseEnv with aiResult := some aiNoVerdict}

/-- Environment for a healthy test following the bad one in the same file. -/
def envC3good : Env := baseEnv

/-- Environment for C4: passing model verdict, after-hook throws. -/
def envC4 : Env := {baseEnv with afterOutcome := some (Except.error "cleanup failed")}

/-- The final text block of a failing model run. -/
def txtC4 : String := "Result: \x7b\"status\": \"failed\", \"reason\": \"button missing\"\x7d"

/-- The verdict object the brace match extracts from `txtC4`. -/
def jsC4 : String := "\x7b\"status\": \"failed\", \"reason\": \"button missing\"\x7d"

/-- A model run whose final response carries a failing verdict. -/
def aiFail : AIRunResult := ⟨[⟨true, txtC4⟩], ⟨11, 3⟩⟩

/-- Environment for the C4 witness: failing model verdict, after-hook throws. -/
def envC4w : Env :=
  {baseEnv with aiResult := some aiFail,
                jsonParse := fun _ => Except.ok ⟨"failed", "button missing"⟩,
                afterOutcome := some (Except.error "cleanup failed")}

/-- Environment for C5: before-hook throws while an after-hook is present. -/
def envC5 : Env :=
  {baseEnv with beforeOutcome := some (Except.error "before hook exploded"),
                afterOutcome := some (Except.ok ())}

/-- A cache entry whose replay is clean: a screenshot step (filtered), the
matching mouse-move step and a click step. -/
def entryC7 : CacheEntry := ⟨some [ssStep, mmStep, clickStep]⟩

/-- Environment for C7: cache hit whose steps all replay without mismatch
(the live fingerprint is `"A"`, equal to the recorded one). -/
def envC7 : Env := {baseEnv with cache := some entryC7}

/-- A cache entry whose `data.steps` is absent. -/
def entryC10 : CacheEntry := ⟨none⟩

/-- Environment for C10: cache hit on an entry with no step list. -/
def envC10 : Env := {baseEnv with cache := some entryC10}

/-! Fidelity lemmas relating the paths of `executeTest`. -/

/-- With the per-call no-cache flag set, `executeTest` is exactly the
preliminaries followed by the fresh tail: the recursive fallback call of the
source is `freshRun`. -/
theorem executeTest_noCache_eq_freshRun (env : Env) (tr : Trace) :
    executeTest env true tr = freshRun env tr := by
  unfold executeTest freshRun
  congr 1
  funext u t
  simp

/-- Whenever caching is off or the cache has no entry, `executeTest` takes the
fresh path. -/
theorem executeTest_fresh (env : Env) (cfg : Bool) (tr : Trace)
    (h : env.runnerNoCache = true ∨ cfg = true ∨ env.cache = none) :
    executeTest env cfg tr = freshRun env tr := by
  unfold executeTest freshRun
  congr 1
  funext u t
  rcases h with h | h | h
  · rw [if_neg]
    intro hc
    rw [h] at hc
    exact absurd hc.1 (by simp)
  · subst h
    simp
  · by_cases hc : env.runnerNoCache = false ∧ cfg = false
    · rw [if_pos hc, h]
    · rw [if_neg hc]

/-- For a non-direct test with the key set and a successful initial screenshot,
the fresh path is the fresh tail. -/
theorem freshRun_eq_freshTail (env : Env) (tr : Trace) (u : String)
    (hdir : env.directExecution = false) (hkey : env.anthropicKeySet = true)
    (hs : env.screenshotOutcome = Except.ok u) :
    freshRun env tr = freshTail env tr := by
  unfold freshRun withPrelims
  rw [hdir, hkey, hs]
  simp

/-- For a non-direct test with the key set, a successful initial screenshot,
caching enabled and a cache entry present, `executeTest` takes the cache
branch. -/
theorem executeTest_cacheHit (env : Env) (tr : Trace) (u : String) (c : CacheEntry)
    (hdir : env.directExecution = false) (hkey : env.anthropicKeySet = true)
    (hs : env.screenshotOutcome = Except.ok u)
    (hnc : env.runnerNoCache = false) (hcache : env.cache = some c) :
    executeTest env false tr = cacheBranch env tr := by
  unfold executeTest withPrelims
  rw [hdir, hkey, hs]
  simp [hnc, hcache]

/-! Behaviour of the replay loop. -/

/-- The replay loop never calls the model. -/
theorem replayLoop_aiCalls (env : Env) (steps : List CacheStep) (tr : Trace) :
    (replayLoop env steps tr).2.aiCalls = tr.aiCalls := by
  induction steps generalizing tr with
  | nil => rfl
  | cons s rest ih =>
    obtain ⟨sa, sex⟩ := s
    rcases sa with _ | ⟨iact, icoord⟩
    · exact ih tr
    · match iact, icoord with
      | BrowserAction.mouseMove, some (x, y) =>
        simp only [replayLoop]
        rcases hf : env.fingerprintAt x y with m | live
        · rfl
        · dsimp only
          by_cases he : sex = some live
          · rw [if_pos he]
            exact ih _
          · rw [if_neg he]
      | BrowserAction.mouseMove, none => exact ih _
      | BrowserAction.screenshot, _ => exact ih _
      | BrowserAction.other tag, _ => exact ih _

/-- When every step is clean for the environment, the replay loop completes and
returns the replayed-from-cache pass result. -/
theorem replayLoop_clean (env : Env) (steps : List CacheStep) (tr : Trace)
    (h : ∀ s ∈ steps, stepClean env s = true) :
    (replayLoop env steps tr).1 = ReplayRes.res replayPassResult := by
  induction steps generalizing tr with
  | nil => rfl
  | cons s rest ih =>
    have hs := h s (List.mem_cons_self s rest)
    have hrest : ∀ x ∈ rest, stepClean env x = true :=
      fun x hx => h x (List.mem_cons_of_mem s hx)
    obtain ⟨sa, sex⟩ := s
    rcases sa with _ | ⟨iact, icoord⟩
    · exact ih tr hrest
    · match iact, icoord with
      | BrowserAction.mouseMove, some (x, y) =>
        simp only [replayLoop]
        rcases hf : env.fingerprintAt x y with m | live
        · rw [stepClean] at hs
          dsimp only at hs
          rw [hf] at hs
          cases hs
        · rw [stepClean] at hs
          dsimp only at hs
          rw [hf] at hs
          dsimp only
          rw [if_pos (of_decide_eq_true hs)]
          exact ih _ hrest
      | BrowserAction.mouseMove, none => exact ih _ hrest
      | BrowserAction.screenshot, _ => exact ih _ hrest
      | BrowserAction.other tag, _ => exact ih _ hrest

/-- Every coordinate pair the replay loop fingerprints comes either from the
incoming trace or from a step whose action tag is `mouse_move` with a
coordinate. -/
theorem replayLoop_fpChecks (env : Env) (steps : List CacheStep) (tr : Trace) :
    ∀ p ∈ (replayLoop env steps tr).2.fpChecks,
      p ∈ tr.fpChecks ∨ ∃ s ∈ steps, fpTarget s = some p := by
  induction steps generalizing tr with
  | nil => exact fun p hp => Or.inl hp
  | cons s rest ih =>
    intro p hp
    obtain ⟨sa, sex⟩ := s
    rcases sa with _ | ⟨iact, icoord⟩
    · rcases ih tr p hp with h | ⟨s', hs', ht⟩
      · exact Or.inl h
      · exact Or.inr ⟨s', List.mem_cons_of_mem _ hs', ht⟩
    · match iact, icoord, hp with
      | BrowserAction.mouseMove, some (x, y), hp =>
        have htar : fpTarget ⟨some ⟨BrowserAction.mouseMove, some (x, y)⟩, sex⟩ = some (x, y) :=
          rfl
        simp only [replayLoop] at hp
        rcases hf : env.fingerprintAt x y with m | live
        · rw [hf] at hp
          rcases List.mem_append.mp hp with h | h
          · exact Or.inl h
          · have hpe : p = (x, y) := by simpa using h
            exact Or.inr ⟨_, List.mem_cons_self _ rest, hpe ▸ htar⟩
        · rw [hf] at hp
          dsimp only at hp
          by_cases he : sex = some live
          · rw [if_pos he] at hp
            rcases ih _ p hp with h | ⟨s', hs', ht⟩
            · rcases List.mem_append.mp h with h2 | h2
              · exact Or.inl h2
              · have hpe : p = (x, y) := by simpa using h2
                exact Or.inr ⟨_, List.mem_cons_self _ rest, hpe ▸ htar⟩
            · exact Or.inr ⟨s', List.mem_cons_of_mem _ hs', ht⟩
          · rw [if_neg he] at hp
            rcases List.mem_append.mp hp with h | h
            · exact Or.inl h
            · have hpe : p = (x, y) := by simpa using h
              exact Or.inr ⟨_, List.mem_cons_self _ rest, hpe ▸ htar⟩
      | BrowserAction.mouseMove, none, hp =>
        exact (ih _ p hp).imp id
          (fun ⟨s', hs', ht⟩ => ⟨s', List.mem_cons_of_mem _ hs', ht⟩)
      | BrowserAction.screenshot, icoord, hp =>
        exact (ih _ p hp).imp id
          (fun ⟨s', hs', ht⟩ => ⟨s', List.mem_cons_of_mem _ hs', ht⟩)
      | BrowserAction.other tag, icoord, hp =>
        exact (ih _ p hp).imp id
          (fun ⟨s', hs', ht⟩ => ⟨s', List.mem_cons_of_mem _ hs', ht⟩)

/-- A replay over steps none of which is a pointer-verified step performs no
fingerprint check at all. -/
theorem replayLoop_fpChecks_none (env : Env) (steps : List CacheStep) (tr : Trace)
    (h : ∀ s ∈ steps, fpTarget s = none) :
    (replayLoop env steps tr).2.fpChecks = tr.fpChecks := by
  induction steps generalizing tr with
  | nil => rfl
  | cons s rest ih =>
    have hs := h s (List.mem_cons_self s rest)
    have hrest : ∀ x ∈ rest, fpTarget x = none :=
      fun x hx => h x (List.mem_cons_of_mem s hx)
    obtain ⟨sa, sex⟩ := s
    rcases sa with _ | ⟨iact, icoord⟩
    · exact ih tr hrest
    · match iact, icoord, hs with
      | BrowserAction.mouseMove, some (x, y), hs => exact absurd hs (by simp [fpTarget])
      | BrowserAction.mouseMove, none, hs => exact ih _ hrest
      | BrowserAction.screenshot, icoord, hs => exact ih _ hrest
      | BrowserAction.other tag, icoord, hs => exact ih _ hrest

/-! Cache-set bookkeeping of the fresh path. -/

/-- `finishRun` bumps the cache-set counter exactly when its result passes. -/
theorem finishRun_cacheSets (parsed : ParsedAI) (tu : TokenUsage) (tr : Trace) :
    (finishRun parsed tu tr).2.cacheSets =
      tr.cacheSets +
        (match (finishRun parsed tu tr).1 with
         | Except.ok r => if r.status = "passed" then 1 else 0
         | Except.error _ => 0) := by
  unfold finishRun
  by_cases h : parsed.status = "passed"
  · rw [if_pos h]
    simp [h]
  · rw [if_neg h]
    simp [h]

/-- The after-hook step bumps the cache-set counter exactly when its result
passes (a throwing after-hook always yields a failed result and no set). -/
theorem afterAndFinish_cacheSets (env : Env) (parsed : ParsedAI) (tu : TokenUsage) (tr : Trace) :
    (afterAndFinish env parsed tu tr).2.cacheSets =
      tr.cacheSets +
        (match (afterAndFinish env parsed tu tr).1 with
         | Except.ok r => if r.status = "passed" then 1 else 0
         | Except.error _ => 0) := by
  unfold afterAndFinish
  rcases env.afterOutcome with _ | o
  · exact finishRun_cacheSets parsed tu tr
  · rcases o with m | u
    · rfl
    · exact finishRun_cacheSets parsed tu _

/-- The model-call step bumps the cache-set counter exactly when its returned
result passes; every thrown error leaves it unchanged. -/
theorem freshAI_cacheSets (env : Env) (tr : Trace) :
    (freshAI env tr).2.cacheSets =
      tr.cacheSets +
        (match (freshAI env tr).1 with
         | Except.ok r => if r.status = "passed" then 1 else 0
         | Except.error _ => 0) := by
  unfold freshAI
  rcases env.aiResult with _ | ai
  · rfl
  · dsimp only
    rcases hfind : findFinalMessage ai.content with _ | txt
    · rfl
    · dsimp only
      rcases hbrace : braceMatch txt with _ | js
      · rfl
      · dsimp only
        rcases hparse : env.jsonParse js with m | parsed
        · rfl
        · exact afterAndFinish_cacheSets env parsed ai.tokenUsage _

/-- The fresh tail bumps the cache-set counter exactly when its returned
result passes. -/
theorem freshTail_cacheSets (env : Env) (tr : Trace) :
    (freshTail env tr).2.cacheSets =
      tr.cacheSets +
        (match (freshTail env tr).1 with
         | Except.ok r => if r.status = "passed" then 1 else 0
         | Except.error _ => 0) := by
  unfold freshTail
  rcases env.beforeOutcome with _ | o
  · exact freshAI_cacheSets env tr
  · rcases o with m | u
    · rfl
    · exact freshAI_cacheSets env _

/-! Claim theorems, counterexamples and witnesses. -/

/-- C1: on a live-fingerprint mismatch during replay, the code returns the
mismatch failure immediately, but it does not delete the cache entry and it
performs no fresh model-driven run — the deletion and the fallback sit in a
`catch` block that a returned (not thrown) failure never reaches, contradicting
both the claim and the result's own reason text. -/
theorem mismatch_keeps_cache_and_skips_fresh_run :
    (executeTest envC1 false tr0).1 = Except.ok replayMismatchResult ∧
    (executeTest envC1 false tr0).2.cacheDeleted = false ∧
    (executeTest envC1 false tr0).2.aiCalls = 0 :=
  ⟨rfl, rfl, rfl⟩

/-- C2: when the cached replay throws, the fallback deletes the entry and runs
the test fresh with caching disabled, but the recursive call's result is
discarded (the source has no `return`), so the outer invocation falls through
into its own fresh run: the model-driven run executes twice, not exactly
once. -/
theorem replay_throw_runs_fresh_twice :
    (executeTest envC2 false tr0).2.aiCalls = 2 ∧
    (executeTest envC2 false tr0).2.cacheDeleted = true ∧
    (executeTest envC2 false tr0).1 = Except.ok ⟨"passed", "done", ⟨5, 7⟩⟩ :=
  ⟨rfl, rfl, rfl⟩

/-- C3 counterexample: a model reply with no parseable verdict makes
`executeTest` throw (`Except.error`), not return a failing verdict, and the
thrown error aborts the remaining tests of the file: the second test of the
file yields no result at all. -/
theorem unparsable_verdict_throws_cex :
    (executeTest envC3bad false tr0).1 =
      Except.error "No test result found in AI response" ∧
    runTestsOfFile [envC3bad, envC3good] [] =
      ([], some "No test result found in AI response") :=
  ⟨rfl, rfl⟩

/-- C4 counterexample: a passing AI verdict followed by a throwing after-hook
yields a failed result whose reason is the hook error alone — it contains
neither an `AI:` nor an `After:` fragment. -/
theorem after_hook_overwrites_pass_reason_cex :
    (executeTest envC4 false tr0).1 = Except.ok ⟨"failed", "cleanup failed", ⟨5, 7⟩⟩ ∧
    strContains "AI:" "cleanup failed" = false ∧
    strContains "After:" "cleanup failed" = false :=
  ⟨rfl, rfl, rfl⟩

/-- C5 counterexample: a throwing before-hook short-circuits, and the
after-hook — although present — does not run (`afterRuns` stays 0), contrary
to the claim that it still runs. -/
theorem before_throw_skips_after_hook_cex :
    (executeTest envC5 false tr0).1 = Except.ok ⟨"failed", "before hook exploded", ⟨0, 0⟩⟩ ∧
    (executeTest envC5 false tr0).2.afterRuns = 0 ∧
    (executeTest envC5 false tr0).2.aiCalls = 0 :=
  ⟨rfl, rfl, rfl⟩

/-- C6: the `sleep` case of `transformAndExecute` fires the browser sleep
operation but then falls through into the default arm and raises the
unsupported-action error, although `sleep` is a recognized tag; truly
recognized no-argument tags such as `screenshot` and `cursor_position`
dispatch without one. -/
theorem sleep_action_falls_through :
    transformAndExecute (fun _ => none) ⟨"sleep", none, none, none, some 5⟩ =
      ([BrowserOp.sleepOp (some 5)], Except.error "Unsupported action: sleep") ∧
    transformAndExecute (fun _ => none) ⟨"screenshot", none, none, none, none⟩ =
      ([BrowserOp.screenshot], Except.ok ()) ∧
    transformAndExecute (fun _ => none) ⟨"cursor_position", none, none, none, none⟩ =
      ([BrowserOp.getState], Except.ok ()) :=
  ⟨rfl, rfl, rfl⟩

/-- C7 counterexample: a clean cached replay returns a passing result, but its
reason is the literal "All actions successfully replayed from cache", not the
claimed exact string "replayed from cache". -/
theorem replay_pass_reason_cex :
    (executeTest envC7 false tr0).1 = Except.ok replayPassResult ∧
    replayPassResult.reason ≠ "replayed from cache" ∧
    (executeTest envC7 false tr0).2.aiCalls = 0 :=
  ⟨rfl, by decide, rfl⟩

/-- C3 (amended): a model reply with no text block carrying a verdict makes the
fresh run throw "No test result found in AI response"; `executeTestFile`
catches the throw, so the remaining tests of that file are skipped and the
file is reported failed, while subsequent files are still processed — the run
as a whole is not aborted, but no per-test failing verdict is produced
either. -/
theorem unparsable_verdict_aborts_file (env : Env) (rest : List Env)
    (other : List (List Env)) (ai : AIRunResult) (u : String)
    (hdir : env.directExecution = false) (hkey : env.anthropicKeySet = true)
    (hs : env.screenshotOutcome = Except.ok u)
    (hfresh : env.runnerNoCache = true ∨ env.cache = none)
    (hb : env.beforeOutcome = none ∨ env.beforeOutcome = some (Except.ok ()))
    (hai : env.aiResult = some ai)
    (hnostatus : ∀ b ∈ ai.content, (b.isText && strContains statusKey b.text) = false) :
    (executeTest env false tr0).1 = Except.error "No test result found in AI response" ∧
    runTestsOfFile (env :: rest) [] = ([], some "No test result found in AI response") ∧
    runTestsModel ((env :: rest) :: other) =
      runTestsOfFile (env :: rest) [] :: other.map (fun envs => runTestsOfFile envs []) := by
  have hfind : findFinalMessage ai.content = none := by
    unfold findFinalMessage
    rw [List.find?_eq_none.mpr (fun b hbm => by simp [hnostatus b hbm])]
  have h1 : (executeTest env false tr0).1 =
      Except.error "No test result found in AI response" := by
    rw [executeTest_fresh env false tr0 (hfresh.elim Or.inl (fun h => Or.inr (Or.inr h))),
        freshRun_eq_freshTail env tr0 u hdir hkey hs]
    unfold freshTail
    rcases hb with h | h <;> rw [h]
    · unfold freshAI
      rw [hai]
      dsimp only
      rw [hfind]
    · dsimp only
      unfold freshAI
      rw [hai]
      dsimp only
      rw [hfind]
  refine ⟨h1, ?_, rfl⟩
  rcases hE : executeTest env false tr0 with ⟨res, trE⟩
  rw [hE] at h1
  dsimp only at h1
  subst h1
  unfold runTestsOfFile
  rw [hE]

/-- Witness for C3's amended theorem at a concrete environment. -/
theorem unparsable_verdict_aborts_file_w :
    (executeTest envC3bad false tr0).1 =
      Except.error "No test result found in AI response" ∧
    runTestsOfFile [envC3bad, envC3good] [] =
      ([], some "No test result found in AI response") ∧
    runTestsModel [[envC3bad, envC3good], [envC3good]] =
      runTestsOfFile [envC3bad, envC3good] [] ::
        [[envC3good]].map (fun envs => runTestsOfFile envs []) :=
  unparsable_verdict_aborts_file envC3bad [envC3good] [[envC3good]] aiNoVerdict baseUrl
    rfl rfl rfl (Or.inr rfl) (Or.inl rfl) rfl (by decide)

/-- C4 (amended): when the after-hook throws on the fresh path, the result is
failed and its reason composes the AI reason as "AI: …, After: …" exactly when
the parsed AI verdict is failed; after a passing AI verdict the reason is the
hook error alone. -/
theorem after_hook_reason_composition (env : Env) (ai : AIRunResult)
    (txt js : String) (parsed : ParsedAI) (u m : String)
    (hdir : env.directExecution = false) (hkey : env.anthropicKeySet = true)
    (hs : env.screenshotOutcome = Except.ok u)
    (hfresh : env.runnerNoCache = true ∨ env.cache = none)
    (hb : env.beforeOutcome = none ∨ env.beforeOutcome = some (Except.ok ()))
    (hai : env.aiResult = some ai)
    (hfind : findFinalMessage ai.content = some txt)
    (hbrace : braceMatch txt = some js)
    (hparse : env.jsonParse js = Except.ok parsed)
    (hafter : env.afterOutcome = some (Except.error m)) :
    (executeTest env false tr0).1 =
      Except.ok ⟨"failed",
        if parsed.status = "failed" then
          "AI: " ++ parsed.reason ++ ", After: " ++ m
        else m,
        ai.tokenUsage⟩ := by
  rw [executeTest_fresh env false tr0 (hfresh.elim Or.inl (fun h => Or.inr (Or.inr h))),
      freshRun_eq_freshTail env tr0 u hdir hkey hs]
  unfold freshTail
  rcases hb with h | h <;> rw [h] <;> dsimp only <;>
    (unfold freshAI
     rw [hai]
     dsimp only
     rw [hfind]
     dsimp only
     rw [hbrace]
     dsimp only
     rw [hparse]
     dsimp only
     unfold afterAndFinish
     rw [hafter])

/-- Witness for C4's amended theorem: a failing AI verdict composed with a
throwing after-hook. -/
theorem after_hook_reason_composition_w :
    (executeTest envC4w false tr0).1 =
      Except.ok ⟨"failed",
        if (ParsedAI.mk "failed" "button missing").status = "failed" then
          "AI: " ++ (ParsedAI.mk "failed" "button missing").reason ++ ", After: " ++
            "cleanup failed"
        else "cleanup failed",
        aiFail.tokenUsage⟩ :=
  after_hook_reason_composition envC4w aiFail txtC4 jsC4 ⟨"failed", "button missing"⟩
    baseUrl "cleanup failed" rfl rfl rfl (Or.inr rfl) (Or.inl rfl) rfl (by decide) (by decide)
    rfl rfl

/-- C5 (amended): a throwing before-hook short-circuits the fresh path to a
failed result carrying the hook's own message, with no model call and without
running the after-hook: the whole invocation only bumps the before-hook
counter. -/
theorem before_throw_short_circuits (env : Env) (cfg : Bool) (tr : Trace) (u m : String)
    (hdir : env.directExecution = false) (hkey : env.anthropicKeySet = true)
    (hs : env.screenshotOutcome = Except.ok u)
    (hfresh : env.runnerNoCache = true ∨ cfg = true ∨ env.cache = none)
    (hb : env.beforeOutcome = some (Except.error m)) :
    executeTest env cfg tr =
      (Except.ok ⟨"failed", m, ⟨0, 0⟩⟩, {tr with beforeRuns := tr.beforeRuns + 1}) := by
  rw [executeTest_fresh env cfg tr hfresh, freshRun_eq_freshTail env tr u hdir hkey hs]
  unfold freshTail
  rw [hb]

/-- Witness for C5's amended theorem at a concrete environment. -/
theorem before_throw_short_circuits_w :
    executeTest envC5 false tr0 =
      (Except.ok ⟨"failed", "before hook exploded", ⟨0, 0⟩⟩,
        {tr0 with beforeRuns := tr0.beforeRuns + 1}) :=
  before_throw_short_circuits envC5 false tr0 baseUrl "before hook exploded"
    rfl rfl rfl (Or.inr (Or.inr rfl)) rfl

/-- C7 (amended): a cache hit whose replayed steps are all clean returns a
passing result with zero token usage and no model call, with the reason
"All actions successfully replayed from cache" (which contains the phrase
"replayed from cache" but is not equal to it). -/
theorem replay_pass_zero_tokens (env : Env) (tr : Trace) (u : String)
    (c : CacheEntry) (l : List CacheStep)
    (hdir : env.directExecution = false) (hkey : env.anthropicKeySet = true)
    (hs : env.screenshotOutcome = Except.ok u)
    (hnc : env.runnerNoCache = false)
    (hcache : env.cache = some c) (hsteps : c.steps = some l)
    (hclean : ∀ s ∈ l.filter (fun s => !(isScreenshotStep s)), stepClean env s = true)
    (hafter : env.afterOutcome = none ∨ env.afterOutcome = some (Except.ok ())) :
    (executeTest env false tr).1 = Except.ok replayPassResult ∧
    (executeTest env false tr).2.aiCalls = tr.aiCalls ∧
    strContains "replayed from cache" replayPassResult.reason = true := by
  have hcs : cachedSteps env.cache = some (l.filter (fun s => !(isScreenshotStep s))) := by
    unfold cachedSteps
    rw [hcache]
    dsimp only
    rw [hsteps]
  rw [executeTest_cacheHit env tr u c hdir hkey hs hnc hcache]
  unfold cacheBranch runCachedTest
  rw [hcs]
  dsimp only
  rcases hrep : replayLoop env (l.filter (fun s => !(isScreenshotStep s))) tr with ⟨res, trE⟩
  have h1 := replayLoop_clean env (l.filter (fun s => !(isScreenshotStep s))) tr hclean
  have h2 := replayLoop_aiCalls env (l.filter (fun s => !(isScreenshotStep s))) tr
  rw [hrep] at h1 h2
  dsimp only at h1 h2
  subst h1
  rcases hafter with h | h <;> rw [h]
  · exact ⟨rfl, h2, by decide⟩
  · exact ⟨rfl, h2, by decide⟩

/-- Witness for C7's amended theorem at a concrete clean cache entry. -/
theorem replay_pass_zero_tokens_w :
    (executeTest envC7 false tr0).1 = Except.ok replayPassResult ∧
    (executeTest envC7 false tr0).2.aiCalls = tr0.aiCalls ∧
    strContains "replayed from cache" replayPassResult.reason = true :=
  replay_pass_zero_tokens envC7 tr0 baseUrl entryC7 [ssStep, mmStep, clickStep]
    rfl rfl rfl rfl rfl rfl (by decide) (Or.inl rfl)

/-- C8: on the fresh (non-cached, non-direct) path, the cache's set operation
runs exactly when the returned verdict's status is "passed": the counter is
bumped by one on a passing result and unchanged on every failed result and on
every thrown error, so a trace is never stored for a failed run. -/
theorem cache_set_iff_passed (env : Env) (cfg : Bool) (tr : Trace)
    (hdir : env.directExecution = false)
    (hfresh : env.runnerNoCache = true ∨ cfg = true ∨ env.cache = none) :
    (executeTest env cfg tr).2.cacheSets =
      tr.cacheSets +
        (match (executeTest env cfg tr).1 with
         | Except.ok r => if r.status = "passed" then 1 else 0
         | Except.error _ => 0) := by
  rw [executeTest_fresh env cfg tr hfresh]
  unfold freshRun withPrelims
  rw [hdir]
  by_cases hkey : env.anthropicKeySet = false
  · rw [if_neg (by simp), if_pos hkey]
    rfl
  · rw [if_neg (by simp), if_neg hkey]
    rcases hscr : env.screenshotOutcome with m | u
    · rfl
    · exact freshTail_cacheSets env tr

/-- Witness for C8 at a concrete passing fresh run. -/
theorem cache_set_iff_passed_w :
    (executeTest baseEnv false tr0).2.cacheSets =
      tr0.cacheSets +
        (match (executeTest baseEnv false tr0).1 with
         | Except.ok r => if r.status = "passed" then 1 else 0
         | Except.error _ => 0) :=
  cache_set_iff_passed baseEnv false tr0 rfl (Or.inr (Or.inr rfl))

/-- C9: during replay, every live-fingerprint check targets a step whose action
tag is `mouse_move` carrying a coordinate — a replay over steps none of which
is such a step performs no check at all — and the same holds for the full
`runCachedTest` over the entry's filtered steps. -/
theorem fingerprint_only_for_mouse_move (env : Env) (steps : List CacheStep) (tr : Trace) :
    (∀ p ∈ (replayLoop env steps tr).2.fpChecks,
        p ∈ tr.fpChecks ∨ ∃ s ∈ steps, fpTarget s = some p) ∧
    ((∀ s ∈ steps, fpTarget s = none) →
        (replayLoop env steps tr).2.fpChecks = tr.fpChecks) ∧
    (∀ p ∈ (runCachedTest env tr).2.fpChecks,
        p ∈ tr.fpChecks ∨ ∃ s ∈ (cachedSteps env.cache).getD [], fpTarget s = some p) := by
  refine ⟨replayLoop_fpChecks env steps tr, replayLoop_fpChecks_none env steps tr, ?_⟩
  unfold runCachedTest
  rcases hcs : cachedSteps env.cache with _ | l
  · intro p hp
    exact Or.inl hp
  · intro p hp
    exact replayLoop_fpChecks env l tr p hp

/-- Witness for C9: a replay consisting of a single click step performs no
fingerprint check. -/
theorem fingerprint_only_for_mouse_move_w :
    (replayLoop baseEnv [clickStep] tr0).2.fpChecks = tr0.fpChecks :=
  (fingerprint_only_for_mouse_move baseEnv [clickStep] tr0).2.1 (by decide)

/-- C10: a cache hit on an entry with no step list returns the failed
"No steps to execute, running test in normal mode" result with zero token
usage, without deleting the entry and without a fresh model-driven run in that
execution. -/
theorem no_steps_cache_kept (env : Env) (tr : Trace) (u : String) (c : CacheEntry)
    (hdir : env.directExecution = false) (hkey : env.anthropicKeySet = true)
    (hs : env.screenshotOutcome = Except.ok u)
    (hnc : env.runnerNoCache = false)
    (hcache : env.cache = some c) (hsteps : c.steps = none)
    (hafter : env.afterOutcome = none ∨ env.afterOutcome = some (Except.ok ())) :
    (executeTest env false tr).1 = Except.ok replayNoStepsResult ∧
    (executeTest env false tr).2.cacheDeleted = tr.cacheDeleted ∧
    (executeTest env false tr).2.aiCalls = tr.aiCalls := by
  have hcs : cachedSteps env.cache = none := by
    unfold cachedSteps
    rw [hcache]
    dsimp only
    rw [hsteps]
  rw [executeTest_cacheHit env tr u c hdir hkey hs hnc hcache]
  unfold cacheBranch runCachedTest
  rw [hcs]
  rcases hafter with h | h <;> rw [h] <;> exact ⟨rfl, rfl, rfl⟩

/-- Witness for C10 at a concrete entry with an absent step list. -/
theorem no_steps_cache_kept_w :
    (executeTest envC10 false tr0).1 = Except.ok replayNoStepsResult ∧
    (executeTest envC10 false tr0).2.cacheDeleted = tr0.cacheDeleted ∧
    (executeTest envC10 false tr0).2.aiCalls = tr0.aiCalls :=
  no_steps_cache_kept envC10 tr0 baseUrl entryC10 rfl rfl rfl rfl rfl rfl (Or.inl rfl)

end Shortest
